import Mathlib

/-!
Shallow embedding of `src/dmut.h`: the data-owning reader/writer lock
(`dmut<T>`, called OwningLock in the spec) and its scoped access handle
(`dlock<T>`, called Guard).

Modelling conventions:
* `std::mutex mut_w` is a Boolean: `true` = locked.
* `std::mutex mut_r` only serializes the bodies of `peek`, `try_peek` and the
  reader branch of `on_release`; each such body is embedded as one atomic
  function, so `mut_r` needs no state component of its own.
* `base_mut_data<T>* data` is an `Option`: `none` models the null pointer a
  moved-from `dmut` is left with.  An operation that would dereference the
  null pointer, or that would block on `mut_w` at its call point, returns
  `none`.
* `reader_count` is an `std::atomic_int`, embedded as `Int` (all its accesses
  in the source are under `mut_r`).
* A `dlock` is embedded by its three data members plus one Boolean `ro`
  recording whether the instantiation is `dlock<const T>` (a reader guard's
  type-level read-only marker): the inherited `unique_ptr<T>` (`val`,
  `some ()` = points at the owner's protected value, `none` = null), the
  recorded `LOCK_TYPE` and the `dmut* owner` back-reference.
-/

namespace Dmut

/-- `enum LOCK_TYPE { WRITER_LOCK, READER_LOCK, NO_LOCK }`. -/
inductive LOCK_TYPE where
  | WRITER_LOCK
  | READER_LOCK
  | NO_LOCK
deriving DecidableEq

open LOCK_TYPE

/-- The storage behind `base_mut_data<T>` / `mut_val_data<T>`: the protected
value that `ptr_data` points at, together with `reader_count`. -/
structure mut_data (T : Type) where
  value : T
  reader_count : Int
deriving DecidableEq

/-- The state of one `dmut<T>`: the (possibly null) `data` pointer and the
write mutex `mut_w` (`true` = locked). -/
structure dmutSt (T : Type) where
  data : Option (mut_data T)
  mut_w : Bool
deriving DecidableEq

/-- The state of one `dlock` handle: the inherited `unique_ptr` (`val`), the
recorded `LOCK_TYPE`, the `owner` back-reference, and the type-level
read-only marker (`true` for `dlock<const T>`). -/
structure dlockSt where
  val : Option Unit
  type : LOCK_TYPE
  owner : Option Unit
  ro : Bool
deriving DecidableEq

/-- Modelled from the spec: the no-argument `dlock` constructor used by the
failure branches of `dmut::try_lock` (line 228) and `dmut::try_peek`
(line 273).  Its definition is absent from `src/` (`dlock` declares no
default constructor); the spec describes the result as "a Guard constructed
with no value and no owner", of `None` kind.  `ro` records which
instantiation (`dlock<T>` or `dlock<const T>`) is being default-constructed. -/
def dlock_default (ro : Bool) : dlockSt :=
  ⟨none, NO_LOCK, none, ro⟩

/-- `dmut::on_release(type)` (dmut.h lines 131-144):
`if (type == WRITER_LOCK) mut_w.unlock();`
then `if (type == READER_LOCK) { lock_guard(mut_r); --data->reader_count;
if (data->reader_count == 0) mut_w.unlock(); }`.
Returns `none` when the reader branch would dereference a null `data`. -/
def on_release {T : Type} (s : dmutSt T) (type : LOCK_TYPE) : Option (dmutSt T) :=
  let s1 : dmutSt T := if type = WRITER_LOCK then ⟨s.data, false⟩ else s
  if type = READER_LOCK then
    match s1.data with
    | none => none
    | some d =>
      let c := d.reader_count - 1
      some ⟨some ⟨d.value, c⟩, if c = 0 then false else s1.mut_w⟩
  else some s1

/-- `dmut::lock()` (lines 209-213): `mut_w.lock();
return dlock<T>(data->ptr_data, this, WRITER_LOCK);`.
`none` while `mut_w` is held (the call blocks) or `data` is null. -/
def lock {T : Type} (s : dmutSt T) : Option (dmutSt T × dlockSt) :=
  if s.mut_w then none
  else
    match s.data with
    | none => none
    | some _ => some (⟨s.data, true⟩, ⟨some (), WRITER_LOCK, some (), false⟩)

/-- `dmut::try_lock()` (lines 223-229): `if (mut_w.try_lock()) return
{true, dlock<T>(data->ptr_data, this, WRITER_LOCK)};
return {false, dlock<T>()};`. -/
def try_lock {T : Type} (s : dmutSt T) : Option (dmutSt T × (Bool × dlockSt)) :=
  if s.mut_w = false then
    match s.data with
    | none => none
    | some _ => some (⟨s.data, true⟩, (true, ⟨some (), WRITER_LOCK, some (), false⟩))
  else some (s, (false, dlock_default false))

/-- `dmut::peek()` (lines 239-247), one atomic step under `mut_r`:
`++data->reader_count; if (data->reader_count == 1) mut_w.lock();
return dlock<const T>(data->ptr_data, this, READER_LOCK);`.
`none` when the first reader would block on a held `mut_w`, or `data` is null. -/
def peek {T : Type} (s : dmutSt T) : Option (dmutSt T × dlockSt) :=
  match s.data with
  | none => none
  | some d =>
    let c := d.reader_count + 1
    if c = 1 then
      if s.mut_w then none
      else some (⟨some ⟨d.value, c⟩, true⟩, ⟨some (), READER_LOCK, some (), true⟩)
    else some (⟨some ⟨d.value, c⟩, s.mut_w⟩, ⟨some (), READER_LOCK, some (), true⟩)

/-- `dmut::try_peek()` (lines 260-277), one atomic step under `mut_r`:
`++data->reader_count; if (data->reader_count == 1) { if (mut_w.try_lock())
return {true, dlock<const T>(...)}; --data->reader_count;
return {false, dlock<const T>()}; } return {true, dlock<const T>(...)};`. -/
def try_peek {T : Type} (s : dmutSt T) : Option (dmutSt T × (Bool × dlockSt)) :=
  match s.data with
  | none => none
  | some d =>
    let c := d.reader_count + 1
    if c = 1 then
      if s.mut_w = false then
        some (⟨some ⟨d.value, c⟩, true⟩, (true, ⟨some (), READER_LOCK, some (), true⟩))
      else
        some (⟨some ⟨d.value, c - 1⟩, s.mut_w⟩, (false, dlock_default true))
    else some (⟨some ⟨d.value, c⟩, s.mut_w⟩, (true, ⟨some (), READER_LOCK, some (), true⟩))

/-- `dlock::unlock()` (lines 355-365): `release(); owner->on_release(type);
owner = nullptr; type = NO_LOCK;`.  The second component is the release
notification delivered to the owning `dmut`: `some type` when `owner` is
non-null, `none` when `owner` is null (the call `owner->on_release(type)`
then reaches no object; on the only reachable such guards `type` is
`NO_LOCK`, for which the `on_release` body touches no state at all).
`~dlock()` (line 345) is exactly `unlock()`. -/
def unlock (g : dlockSt) : dlockSt × Option LOCK_TYPE :=
  (⟨none, NO_LOCK, none, g.ro⟩, g.owner.map fun _ => g.type)

/-- `dlock`'s move constructor (line 330):
`dlock(dlock&& other) : unique_ptr<T>(std::move(other)), type(other.type),
owner(other.owner) {}`.  The `unique_ptr` move nulls `other`'s pointer, but
`other.type` and `other.owner` are left untouched.  Result: (destination,
source after the move). -/
def dlock_move_ctor (other : dlockSt) : dlockSt × dlockSt :=
  (⟨other.val, other.type, other.owner, other.ro⟩,
   ⟨none, other.type, other.owner, other.ro⟩)

/-- `dlock`'s move assignment (lines 334-343):
`unique_ptr<T>::operator=(std::move(other)); this->owner = other.owner;
other.owner = nullptr; this->type = type; other.type = NO_LOCK;`.
Note `this->type = type` assigns the member to itself (the destination keeps
its old `type`).  Result: (destination, source after the move). -/
def dlock_move_assign (this other : dlockSt) : dlockSt × dlockSt :=
  (⟨other.val, this.type, other.owner, this.ro⟩,
   ⟨none, NO_LOCK, none, other.ro⟩)

/-- `dmut(T&& value)` (line 148): `data = new mut_val_data<T>(move(value))`,
so the fresh lock embeds the value with `reader_count = 0` and `mut_w` free.
(`dmut(T*)`, line 150, yields the same state shape with heap storage.) -/
def dmut_of_val {T : Type} (v : T) : dmutSt T :=
  ⟨some ⟨v, 0⟩, false⟩

/-- `dmut`'s move constructor (lines 160-168): takes `lock_guard`s on both
`mut_w` mutexes (blocking while the source's is held), then
`this->data = other.data; other.data = nullptr;`.  Result: (destination,
source after the move); both `mut_w` guards are released on return. -/
def dmut_move_ctor {T : Type} (src : dmutSt T) : Option (dmutSt T × dmutSt T) :=
  if src.mut_w then none
  else some (⟨src.data, false⟩, ⟨none, false⟩)

/-- `~dmut()` (lines 170-177): `lock_guard(mut_w); data->clean(); delete data;`.
`none` when the `lock_guard` would block on a held `mut_w`, or when
`data->clean()` is a virtual call through a null `data` pointer. -/
def dmut_dtor {T : Type} (s : dmutSt T) : Option Unit :=
  if s.mut_w then none
  else
    match s.data with
    | none => none
    | some _ => some ()

/-- `dlock::operator*` (line 347), a `unique_ptr` dereference: yields the
protected value the guard's pointer targets, `none` on a null pointer. -/
def deref {T : Type} (s : dmutSt T) (g : dlockSt) : Option T :=
  match g.val with
  | none => none
  | some _ => s.data.map fun d => d.value

/-- A store through a writer guard's pointer (`*guard = w`), legal only on a
non-const instantiation with a live pointer; it rewrites the protected value
the pointer targets inside the owning `dmut`. -/
def write_through {T : Type} (s : dmutSt T) (g : dlockSt) (w : T) : Option (dmutSt T) :=
  match g.val with
  | none => none
  | some _ =>
    if g.ro then none
    else s.data.map fun d => ⟨some ⟨w, d.reader_count⟩, s.mut_w⟩

/-- A guard's `unlock()` together with the owner's matching `on_release`:
the composite effect of dropping guard `g` on the owning state `s`. -/
def unlock_on {T : Type} (s : dmutSt T) (g : dlockSt) : Option (dmutSt T × dlockSt) :=
  match unlock g with
  | (g1, some t) => (on_release s t).map fun s1 => (s1, g1)
  | (g1, none) => some (s, g1)

/-! ### The acquisition/release transition system

A system state is one live `dmut` plus two ghost counters: the number of
outstanding writer guards and of outstanding reader guards.  Each transition
is one of the source's acquisition or release operations; a blocking
operation fires only when it can complete (its embedding returns `some`). -/

/-- One live `dmut` plus ghost counts of outstanding writer/reader guards. -/
structure Sys where
  lk : dmutSt Unit
  writers : Nat
  readers : Nat

/-- The initial system: a freshly constructed `dmut`, no guards outstanding. -/
def initSys : Sys :=
  ⟨dmut_of_val (), 0, 0⟩

/-- One acquisition or release step of the source's API. -/
inductive Step : Sys → Sys → Prop where
  | lock_acq {s : Sys} {l : dmutSt Unit} {g : dlockSt} :
      lock s.lk = some (l, g) → Step s ⟨l, s.writers + 1, s.readers⟩
  | try_lock_acq {s : Sys} {l : dmutSt Unit} {g : dlockSt} :
      try_lock s.lk = some (l, (true, g)) → Step s ⟨l, s.writers + 1, s.readers⟩
  | try_lock_rej {s : Sys} {l : dmutSt Unit} {g : dlockSt} :
      try_lock s.lk = some (l, (false, g)) → Step s ⟨l, s.writers, s.readers⟩
  | peek_acq {s : Sys} {l : dmutSt Unit} {g : dlockSt} :
      peek s.lk = some (l, g) → Step s ⟨l, s.writers, s.readers + 1⟩
  | try_peek_acq {s : Sys} {l : dmutSt Unit} {g : dlockSt} :
      try_peek s.lk = some (l, (true, g)) → Step s ⟨l, s.writers, s.readers + 1⟩
  | try_peek_rej {s : Sys} {l : dmutSt Unit} {g : dlockSt} :
      try_peek s.lk = some (l, (false, g)) → Step s ⟨l, s.writers, s.readers⟩
  | release_w {s : Sys} {l : dmutSt Unit} :
      1 ≤ s.writers → on_release s.lk WRITER_LOCK = some l →
      Step s ⟨l, s.writers - 1, s.readers⟩
  | release_r {s : Sys} {l : dmutSt Unit} :
      1 ≤ s.readers → on_release s.lk READER_LOCK = some l →
      Step s ⟨l, s.writers, s.readers - 1⟩

/-- States reachable from a freshly constructed `dmut` by acquisition and
release steps. -/
inductive Reachable : Sys → Prop where
  | init : Reachable initSys
  | step {s s' : Sys} : Reachable s → Step s s' → Reachable s'

/-- The inductive invariant of the two-mutex protocol: `data` stays live,
`reader_count` counts the outstanding reader guards, at most one writer
guard exists and excludes all reader guards, and `mut_w` is held exactly
when a writer guard or the reader group holds it. -/
def Inv (s : Sys) : Prop :=
  (∃ d, s.lk.data = some d ∧ d.reader_count = (s.readers : Int)) ∧
  s.writers ≤ 1 ∧
  (s.writers = 1 → s.readers = 0) ∧
  (s.lk.mut_w = true ↔ (s.writers = 1 ∨ 1 ≤ s.readers))

theorem inv_init : Inv initSys := by
  refine ⟨⟨⟨(), 0⟩, rfl, rfl⟩, ?_, ?_, ?_⟩ <;> simp [initSys, dmut_of_val]

theorem inv_step {s s' : Sys} (hi : Inv s) (hstep : Step s s') : Inv s' := by
  obtain ⟨⟨d, hd, hcnt⟩, hw1, hwr, hiff⟩ := hi
  cases hstep with
  | lock_acq h =>
      simp only [lock, hd] at h
      by_cases hm : s.lk.mut_w
      · simp [hm] at h
      · have hfree : ¬(s.writers = 1 ∨ 1 ≤ s.readers) := fun hc => hm (hiff.mpr hc)
        simp [hm] at h
        obtain ⟨hl, -⟩ := h
        subst hl
        refine ⟨⟨_, rfl, ?_⟩, ?_, ?_, ?_⟩ <;> dsimp only
        · exact hcnt
        · omega
        · omega
        · exact ⟨fun _ => by omega, fun _ => rfl⟩
  | try_lock_acq h =>
      simp only [try_lock, hd] at h
      by_cases hm : s.lk.mut_w
      · simp [hm] at h
      · have hfree : ¬(s.writers = 1 ∨ 1 ≤ s.readers) := fun hc => hm (hiff.mpr hc)
        simp [hm] at h
        obtain ⟨hl, -⟩ := h
        subst hl
        refine ⟨⟨_, rfl, ?_⟩, ?_, ?_, ?_⟩ <;> dsimp only
        · exact hcnt
        · omega
        · omega
        · exact ⟨fun _ => by omega, fun _ => rfl⟩
  | try_lock_rej h =>
      simp only [try_lock, hd] at h
      by_cases hm : s.lk.mut_w
      · simp [hm] at h
        obtain ⟨hl, -⟩ := h
        subst hl
        exact ⟨⟨d, hd, hcnt⟩, hw1, hwr, hiff⟩
      · simp [hm] at h
  | peek_acq h =>
      simp only [peek, hd] at h
      by_cases hc : d.reader_count + 1 = 1
      · by_cases hm : s.lk.mut_w
        · simp [hc, hm] at h
        · have hfree : ¬(s.writers = 1 ∨ 1 ≤ s.readers) := fun hx => hm (hiff.mpr hx)
          simp [hc, hm] at h
          obtain ⟨hl, -⟩ := h
          subst hl
          refine ⟨⟨_, rfl, ?_⟩, ?_, ?_, ?_⟩ <;> dsimp only
          · omega
          · omega
          · omega
          · exact ⟨fun _ => by omega, fun _ => rfl⟩
      · have hrd : 1 ≤ s.readers := by omega
        have hm : s.lk.mut_w = true := hiff.mpr (Or.inr hrd)
        have hw0 : s.writers = 0 := by
          rcases Nat.eq_or_lt_of_le hw1 with h1 | h1
          · exact absurd (hwr h1) (by omega)
          · omega
        simp [hc, hm] at h
        obtain ⟨hl, -⟩ := h
        subst hl
        refine ⟨⟨_, rfl, ?_⟩, ?_, ?_, ?_⟩ <;> dsimp only
        · omega
        · omega
        · omega
        · exact ⟨fun _ => by omega, fun _ => rfl⟩
  | try_peek_acq h =>
      simp only [try_peek, hd] at h
      by_cases hc : d.reader_count + 1 = 1
      · by_cases hm : s.lk.mut_w
        · simp [hc, hm] at h
        · have hfree : ¬(s.writers = 1 ∨ 1 ≤ s.readers) := fun hx => hm (hiff.mpr hx)
          simp [hc, hm] at h
          obtain ⟨hl, -⟩ := h
          subst hl
          refine ⟨⟨_, rfl, ?_⟩, ?_, ?_, ?_⟩ <;> dsimp only
          · omega
          · omega
          · omega
          · exact ⟨fun _ => by omega, fun _ => rfl⟩
      · have hrd : 1 ≤ s.readers := by omega
        have hm : s.lk.mut_w = true := hiff.mpr (Or.inr hrd)
        have hw0 : s.writers = 0 := by
          rcases Nat.eq_or_lt_of_le hw1 with h1 | h1
          · exact absurd (hwr h1) (by omega)
          · omega
        simp [hc, hm] at h
        obtain ⟨hl, -⟩ := h
        subst hl
        refine ⟨⟨_, rfl, ?_⟩, ?_, ?_, ?_⟩ <;> dsimp only
        · omega
        · omega
        · omega
        · exact ⟨fun _ => by omega, fun _ => rfl⟩
  | try_peek_rej h =>
      simp only [try_peek, hd] at h
      by_cases hc : d.reader_count + 1 = 1
      · by_cases hm : s.lk.mut_w
        · have hP : s.writers = 1 ∨ 1 ≤ s.readers := hiff.mp hm
          simp [hc, hm] at h
          obtain ⟨hl, -⟩ := h
          subst hl
          refine ⟨⟨_, rfl, ?_⟩, ?_, ?_, ?_⟩ <;> dsimp only
          · omega
          · omega
          · omega
          · exact ⟨fun _ => hP, fun _ => rfl⟩
        · simp [hc, hm] at h
      · simp [hc] at h
  | release_w h1 h2 =>
      have hweq : s.writers = 1 := by omega
      have hrd : s.readers = 0 := hwr hweq
      simp [on_release, hd] at h2
      subst h2
      refine ⟨⟨_, rfl, ?_⟩, ?_, ?_, ?_⟩ <;> dsimp only
      · omega
      · omega
      · omega
      · exact ⟨fun hx => by simp at hx, fun hx => absurd hx (by omega)⟩
  | release_r h1 h2 =>
      have hm : s.lk.mut_w = true := hiff.mpr (Or.inr h1)
      have hw0 : s.writers = 0 := by
        rcases Nat.eq_or_lt_of_le hw1 with hx | hx
        · exact absurd (hwr hx) (by omega)
        · omega
      simp [on_release, hd, hm] at h2
      subst h2
      refine ⟨⟨_, rfl, ?_⟩, ?_, ?_, ?_⟩ <;> dsimp only
      · omega
      · omega
      · omega
      · simp only [Bool.not_eq_true', decide_eq_false_iff_not]
        omega

theorem reachable_inv {s : Sys} (h : Reachable s) : Inv s := by
  induction h with
  | init => exact inv_init
  | step _ hstep ih => exact inv_step ih hstep

/-- C1: at every reachable state of a `dmut`, either exactly one writer guard
and no reader guard is outstanding, or there is no writer guard (and any
number of reader guards); a writer guard and a reader guard are never live
at the same instant. -/
theorem writer_excludes_readers (s : Sys) (h : Reachable s) :
    (s.writers = 1 ∧ s.readers = 0) ∨ s.writers = 0 := by
  obtain ⟨-, hw1, hwr, -⟩ := reachable_inv h
  rcases Nat.eq_or_lt_of_le hw1 with hx | hx
  · exact Or.inl ⟨hx, hwr hx⟩
  · exact Or.inr (by omega)

theorem writer_excludes_readers_witness :
    ((0 + 1 = 1 ∧ 0 = 0) ∨ 0 + 1 = 0) :=
  writer_excludes_readers ⟨⟨some ⟨(), 0⟩, true⟩, 0 + 1, 0⟩
    (Reachable.step Reachable.init
      (@Step.lock_acq initSys ⟨some ⟨(), 0⟩, true⟩
        ⟨some (), WRITER_LOCK, some (), false⟩ (by decide)))

/-- C2: `on_release(WRITER_LOCK)` unconditionally releases `mut_w`;
`on_release(READER_LOCK)` decrements `reader_count` and releases `mut_w`
exactly when the decrement brings the count to zero; the whole
decrement-and-maybe-release runs as one atomic step under `mut_r`. -/
theorem on_release_spec {T : Type} (d : mut_data T) (w : Bool) :
    on_release (⟨some d, w⟩ : dmutSt T) WRITER_LOCK = some ⟨some d, false⟩ ∧
    on_release (⟨some d, w⟩ : dmutSt T) READER_LOCK =
      some ⟨some ⟨d.value, d.reader_count - 1⟩,
            if d.reader_count - 1 = 0 then false else w⟩ :=
  ⟨rfl, rfl⟩

/-- C3: on every reachable state, `try_lock` never blocks (it always returns),
it genuinely attempts the non-blocking acquisition — failing exactly when
`mut_w` is currently held, i.e. exactly when a writer guard or the reader
group holds the exclusive primitive — and on success it has acquired `mut_w`
and returns a writer guard to the protected value. -/
theorem try_lock_spec (s : Sys) (h : Reachable s) :
    ∃ l ok g, try_lock s.lk = some (l, (ok, g)) ∧
      (ok = false ↔ s.lk.mut_w = true) ∧
      (s.lk.mut_w = true ↔ (s.writers = 1 ∨ 1 ≤ s.readers)) ∧
      (ok = true → g = ⟨some (), WRITER_LOCK, some (), false⟩ ∧ l = ⟨s.lk.data, true⟩) ∧
      (ok = false → g = dlock_default false ∧ l = s.lk) := by
  obtain ⟨⟨d, hd, -⟩, -, -, hiff⟩ := reachable_inv h
  by_cases hm : s.lk.mut_w
  · refine ⟨s.lk, false, dlock_default false, ?_, ?_, hiff, ?_, fun _ => ⟨rfl, rfl⟩⟩
    · simp [try_lock, hm]
    · simp [hm]
    · intro hx
      cases hx
  · refine ⟨⟨s.lk.data, true⟩, true, ⟨some (), WRITER_LOCK, some (), false⟩,
      ?_, ?_, hiff, fun _ => ⟨rfl, rfl⟩, ?_⟩
    · simp [try_lock, hm, hd]
    · simp [hm]
    · intro hx
      cases hx

theorem try_lock_spec_witness :
    ∃ l ok g, try_lock initSys.lk = some (l, (ok, g)) ∧
      (ok = false ↔ initSys.lk.mut_w = true) ∧
      (initSys.lk.mut_w = true ↔ (initSys.writers = 1 ∨ 1 ≤ initSys.readers)) ∧
      (ok = true → g = ⟨some (), WRITER_LOCK, some (), false⟩ ∧ l = ⟨initSys.lk.data, true⟩) ∧
      (ok = false → g = dlock_default false ∧ l = initSys.lk) :=
  try_lock_spec initSys Reachable.init

/-- C4, behavioral part (the declared-return-type defect is recorded in the
results): on every reachable state, `try_peek` fails only when a writer
guard is outstanding, and whenever no writer guard is outstanding it
succeeds and returns a read-only (`dlock<const T>`) reader guard. -/
theorem try_peek_spec (s : Sys) (h : Reachable s) :
    ∃ l ok g, try_peek s.lk = some (l, (ok, g)) ∧
      (ok = false → s.writers = 1) ∧
      (s.writers = 0 → ok = true ∧ g = ⟨some (), READER_LOCK, some (), true⟩) := by
  obtain ⟨⟨d, hd, hcnt⟩, hw1, hwr, hiff⟩ := reachable_inv h
  by_cases hc : d.reader_count + 1 = 1
  · by_cases hm : s.lk.mut_w
    · have hw : s.writers = 1 := by
        rcases hiff.mp hm with hP | hP
        · exact hP
        · omega
      refine ⟨⟨some ⟨d.value, d.reader_count + 1 - 1⟩, s.lk.mut_w⟩, false,
        dlock_default true, ?_, fun _ => hw, ?_⟩
      · simp [try_peek, hd, hc, hm]
      · intro h0
        omega
    · refine ⟨⟨some ⟨d.value, d.reader_count + 1⟩, true⟩, true,
        ⟨some (), READER_LOCK, some (), true⟩, ?_, ?_, fun _ => ⟨rfl, rfl⟩⟩
      · simp [try_peek, hd, hc, hm]
      · intro hx
        cases hx
  · refine ⟨⟨some ⟨d.value, d.reader_count + 1⟩, s.lk.mut_w⟩, true,
      ⟨some (), READER_LOCK, some (), true⟩, ?_, ?_, fun _ => ⟨rfl, rfl⟩⟩
    · simp [try_peek, hd, hc]
    · intro hx
      cases hx

theorem try_peek_spec_witness :
    ∃ l ok g, try_peek initSys.lk = some (l, (ok, g)) ∧
      (ok = false → initSys.writers = 1) ∧
      (initSys.writers = 0 → ok = true ∧ g = ⟨some (), READER_LOCK, some (), true⟩) :=
  try_peek_spec initSys Reachable.init

/-- C5: guard release is idempotent: the first `unlock` clears the pointer,
delivers exactly one `on_release` notification carrying the recorded kind to
the owner (when the guard has one), and leaves the guard owner-less with
`NO_LOCK` kind; a second `unlock` — explicit, or the destructor's implicit
one after an explicit release — returns the guard unchanged and delivers no
notification to any lock. -/
theorem unlock_idempotent (g : dlockSt) :
    (unlock g).1.val = none ∧ (unlock g).1.owner = none ∧
    (unlock g).1.type = NO_LOCK ∧
    (unlock g).2 = g.owner.map (fun _ => g.type) ∧
    unlock (unlock g).1 = ((unlock g).1, none) :=
  ⟨rfl, rfl, rfl, rfl, rfl⟩

/-- C6 is refuted by the code (details in the results): the guard move
constructor copies pointer, kind and owner to the destination but leaves the
source's `owner` and `type` armed, so destroying both guards delivers the
writer release notification twice; and move assignment assigns `this->type`
to itself, so the recorded kind never reaches the destination. -/
theorem dlock_move_not_disarming :
    (dlock_move_ctor ⟨some (), WRITER_LOCK, some (), false⟩).1 =
      ⟨some (), WRITER_LOCK, some (), false⟩ ∧
    (dlock_move_ctor ⟨some (), WRITER_LOCK, some (), false⟩).2.owner = some () ∧
    (dlock_move_ctor ⟨some (), WRITER_LOCK, some (), false⟩).2.type = WRITER_LOCK ∧
    (unlock (dlock_move_ctor ⟨some (), WRITER_LOCK, some (), false⟩).1).2 =
      some WRITER_LOCK ∧
    (unlock (dlock_move_ctor ⟨some (), WRITER_LOCK, some (), false⟩).2).2 =
      some WRITER_LOCK ∧
    (dlock_move_assign (dlock_default false) ⟨some (), WRITER_LOCK, some (), false⟩).1.type =
      NO_LOCK := by
  decide

/-- C7: constructing a `dmut` that embeds `v` and immediately acquiring the
exclusive lock yields a guard dereferencing to exactly `v`; a mutation
written through the writer guard is observed by the next acquirer — writer
or reader — after the guard is released. -/
theorem round_trip {T : Type} (v w : T) :
    ∃ s1 g s2 s3 g1,
      lock (dmut_of_val v) = some (s1, g) ∧
      deref s1 g = some v ∧
      write_through s1 g w = some s2 ∧
      unlock_on s2 g = some (s3, g1) ∧
      (∃ s4 gw, lock s3 = some (s4, gw) ∧ deref s4 gw = some w) ∧
      (∃ s5 gr, peek s3 = some (s5, gr) ∧ deref s5 gr = some w) :=
  ⟨⟨some ⟨v, 0⟩, true⟩, ⟨some (), WRITER_LOCK, some (), false⟩,
    ⟨some ⟨w, 0⟩, true⟩, ⟨some ⟨w, 0⟩, false⟩, ⟨none, NO_LOCK, none, false⟩,
    rfl, rfl, rfl, rfl,
    ⟨⟨some ⟨w, 0⟩, true⟩, ⟨some (), WRITER_LOCK, some (), false⟩, rfl, rfl⟩,
    ⟨⟨some ⟨w, 1⟩, true⟩, ⟨some (), READER_LOCK, some (), true⟩, rfl, rfl⟩⟩

/-- C8 is refuted by the code (details in the results): moving a `dmut` with
no outstanding guards transfers the protected value, but the source is left
with a null `data` pointer — not a zeroed reader count — and its destructor
then performs the virtual call `data->clean()` through that null pointer. -/
theorem dmut_move_source_dtor_null :
    ∃ dst src2, dmut_move_ctor (dmut_of_val (5 : Int)) = some (dst, src2) ∧
      dst.data = some ⟨5, 0⟩ ∧ src2.data = none ∧ dmut_dtor src2 = none :=
  ⟨⟨some ⟨5, 0⟩, false⟩, ⟨none, false⟩, rfl, rfl, rfl, rfl⟩

/-- C9: the failed-acquisition sentinel — a guard with no value and no owner,
as returned by the failure branches of `try_lock`/`try_peek` — dereferences
to nothing, and its release (explicit `unlock` or the destructor) is a no-op
that delivers no `on_release` notification to any lock. -/
theorem dlock_default_inert (T : Type) (s : dmutSt T) (ro : Bool) :
    (dlock_default ro).val = none ∧ (dlock_default ro).owner = none ∧
    (dlock_default ro).type = NO_LOCK ∧
    deref s (dlock_default ro) = none ∧
    unlock (dlock_default ro) = (dlock_default ro, none) :=
  ⟨rfl, rfl, rfl, rfl, rfl⟩

/-- C10: failure atomicity of `try_peek`: whenever it returns failure, the
provisional increment of `reader_count` has been undone inside the same
`mut_r` critical section, so the lock state is returned exactly as it was. -/
theorem try_peek_fail_atomic {T : Type} (s : dmutSt T) (d : mut_data T)
    (l : dmutSt T) (g : dlockSt) (hd : s.data = some d)
    (h : try_peek s = some (l, (false, g))) : l = s := by
  obtain ⟨sd, sw⟩ := s
  obtain ⟨dv, dc⟩ := d
  dsimp only at hd
  subst hd
  by_cases hc : dc + 1 = 1
  · cases sw
    · simp [try_peek, hc] at h
    · simp [try_peek, hc] at h
      obtain ⟨hl, -⟩ := h
      subst hl
      simp
      omega
  · simp [try_peek, hc] at h

theorem try_peek_fail_atomic_witness :
    (⟨some ⟨(0 : Int), 0⟩, true⟩ : dmutSt Int) = ⟨some ⟨(0 : Int), 0⟩, true⟩ :=
  try_peek_fail_atomic ⟨some ⟨(0 : Int), 0⟩, true⟩ ⟨(0 : Int), 0⟩
    ⟨some ⟨(0 : Int), 0⟩, true⟩ (dlock_default true) (by decide) (by decide)

end Dmut
